import Mathlib

/-!
Shallow embedding of the fitness-studio booking system (src/database.py,
src/services.py, src/models.py, src/utils.py).

Modelling conventions:
* SQLite rows become Lean structures; the tables `classes` and `bookings`
  become lists inside `DBState`.  `AUTOINCREMENT` booking ids become the
  counter `nextBookingId` (SQLite row ids start at 1).
* Timestamps are absolute instants modelled as `Int`.  Both the SQL filter
  `datetime(date_time) > datetime('now')` and the service-level
  `is_future_class` comparison (IST) compare the same absolute instant, so a
  single `now : Int` parameter is threaded to both.
* `ORDER BY` clauses become insertion sorts on the relevant key.
* The `try/except` block of `Database.create_booking` rolls back and returns
  `None` on a storage fault; since the rollback restores the pre-call state,
  an injected fault is modelled by a boolean `fault` parameter that aborts
  the whole unit with `(none, s)`.
* Python `str.lower` / `str.upper`, restricted to the ASCII characters the
  email regular expression admits, are modelled as the letter-pair table
  `asciiLetterPairs`.
-/

/-- Row of the `classes` table (src/database.py, `init_database`). -/
structure ClassRow where
  id : Nat
  name : String
  date_time : Int
  instructor : String
  available_slots : Int
  total_slots : Int
deriving DecidableEq

/-- Row of the `bookings` table (src/database.py, `init_database`). -/
structure BookingRow where
  id : Nat
  class_id : Nat
  client_name : String
  client_email : String
  booking_date : Int
deriving DecidableEq

/-- The persistent store: both tables plus the next `AUTOINCREMENT` row id
for `bookings`. -/
structure DBState where
  classes : List ClassRow
  bookings : List BookingRow
  nextBookingId : Nat
deriving DecidableEq

/-- Ascending insertion by `date_time`, modelling `ORDER BY date_time`. -/
def insertByDate (c : ClassRow) : List ClassRow → List ClassRow
  | [] => [c]
  | d :: ds => if c.date_time ≤ d.date_time then c :: d :: ds else d :: insertByDate c ds

/-- Insertion sort by ascending `date_time` (`ORDER BY date_time`). -/
def sortByDate : List ClassRow → List ClassRow
  | [] => []
  | c :: cs => insertByDate c (sortByDate cs)

/-- `Database.get_all_classes`: all classes with
`datetime(date_time) > datetime('now')`, ordered by `date_time`. -/
def Database.get_all_classes (s : DBState) (now : Int) : List ClassRow :=
  sortByDate (s.classes.filter (fun c => decide (now < c.date_time)))

/-- `Database.get_class_by_id`: `SELECT ... FROM classes WHERE id = ?`. -/
def Database.get_class_by_id (s : DBState) (class_id : Nat) : Option ClassRow :=
  s.classes.find? (fun c => decide (c.id = class_id))

/-- The duplicate probe inside `Database.create_booking`:
`SELECT id FROM bookings WHERE class_id = ? AND client_email = ?`. -/
def hasDuplicateBooking (s : DBState) (class_id : Nat) (client_email : String) : Bool :=
  s.bookings.any (fun b => decide (b.class_id = class_id ∧ b.client_email = client_email))

/-- `UPDATE classes SET available_slots = available_slots - 1 WHERE id = ?`. -/
def decrementSlots (classes : List ClassRow) (class_id : Nat) : List ClassRow :=
  classes.map (fun c =>
    if c.id = class_id then { c with available_slots := c.available_slots - 1 } else c)

/-- `Database.create_booking` (src/database.py lines 176–227): one atomic
unit that (a) re-checks `id = ? AND available_slots > 0`, (b) re-checks no
booking for `(class_id, client_email)`, (c) inserts the booking row with
`booking_date` copied from the class row, (d) decrements `available_slots`,
and commits.  A raised storage fault (`fault = true`) rolls back and
returns `None` with the state unchanged. -/
def Database.create_booking (fault : Bool) (s : DBState) (class_id : Nat)
    (client_name client_email : String) : Option Nat × DBState :=
  if fault then (none, s)
  else
    match s.classes.find? (fun c => decide (c.id = class_id ∧ 0 < c.available_slots)) with
    | none => (none, s)
    | some class_data =>
      if hasDuplicateBooking s class_id client_email then (none, s)
      else
        (some s.nextBookingId,
         { classes := decrementSlots s.classes class_id,
           bookings := s.bookings ++
             [{ id := s.nextBookingId, class_id := class_id, client_name := client_name,
                client_email := client_email, booking_date := class_data.date_time }],
           nextBookingId := s.nextBookingId + 1 })

/-- Booking joined with its class name, as produced by the `JOIN` in
`Database.get_bookings_by_email` and consumed as `BookingHistory`. -/
structure BookingHistory where
  id : Nat
  class_name : String
  client_name : String
  client_email : String
  booking_date : Int
deriving DecidableEq

/-- The `JOIN classes c ON b.class_id = c.id` step: a booking whose class id
matches no class row is dropped (inner join). -/
def joinClassName (s : DBState) (b : BookingRow) : Option BookingHistory :=
  match s.classes.find? (fun c => decide (c.id = b.class_id)) with
  | some c => some { id := b.id, class_name := c.name, client_name := b.client_name,
                     client_email := b.client_email, booking_date := b.booking_date }
  | none => none

/-- Descending insertion by `booking_date` (`ORDER BY b.booking_date DESC`). -/
def insertByDateDesc (x : BookingHistory) : List BookingHistory → List BookingHistory
  | [] => [x]
  | y :: ys => if y.booking_date ≤ x.booking_date then x :: y :: ys else y :: insertByDateDesc x ys

/-- Insertion sort by descending `booking_date`. -/
def sortByDateDesc : List BookingHistory → List BookingHistory
  | [] => []
  | x :: xs => insertByDateDesc x (sortByDateDesc xs)

/-- `Database.get_bookings_by_email`: bookings filtered by email, joined with
the class name, most recent `booking_date` first. -/
def Database.get_bookings_by_email (s : DBState) (email : String) : List BookingHistory :=
  sortByDateDesc
    ((s.bookings.filter (fun b => decide (b.client_email = email))).filterMap (joinClassName s))

/-- `models.FitnessClass`, the service-layer view of a class row. -/
structure FitnessClass where
  id : Nat
  name : String
  date_time : Int
  instructor : String
  available_slots : Int
  total_slots : Int
deriving DecidableEq

/-- Field-by-field construction of `FitnessClass` from a class row, as done
in `BookingService.get_all_classes` / `get_class_by_id`. -/
def toFitnessClass (c : ClassRow) : FitnessClass :=
  { id := c.id, name := c.name, date_time := c.date_time, instructor := c.instructor,
    available_slots := c.available_slots, total_slots := c.total_slots }

/-- `utils.is_future_class`: the class instant is strictly after now. -/
def is_future_class (now : Int) (class_datetime : Int) : Bool :=
  decide (now < class_datetime)

/-- `BookingService.get_all_classes`: rows from the store, kept only when
`is_future_class`, converted to `FitnessClass`. -/
def BookingService.get_all_classes (now : Int) (s : DBState) : List FitnessClass :=
  ((Database.get_all_classes s now).filter (fun c => is_future_class now c.date_time)).map
    toFitnessClass

/-- `BookingService.get_class_by_id`: a class is returned only when it exists
and its start time is strictly in the future. -/
def BookingService.get_class_by_id (now : Int) (s : DBState) (class_id : Nat) :
    Option FitnessClass :=
  match Database.get_class_by_id s class_id with
  | none => none
  | some c => if is_future_class now c.date_time then some (toFitnessClass c) else none

/-- `models.BookingRequest` as it reaches the service layer (fields already
validated and the email already normalized by the pydantic validators). -/
structure BookingRequest where
  class_id : Nat
  client_name : String
  client_email : String
deriving DecidableEq

/-- `models.BookingResponse`. -/
structure BookingResponse where
  booking_id : Nat
  class_name : String
  client_name : String
  client_email : String
  booking_date : Int
  message : String
deriving DecidableEq

/-- `BookingService.create_booking` (src/services.py lines 75–99): validates
existence/future via `get_class_by_id`, checks capacity, then delegates to
the transactional `Database.create_booking`.  The Python test
`if not booking_id` is falsy for both `None` and `0`. -/
def BookingService.create_booking (fault : Bool) (now : Int) (s : DBState)
    (req : BookingRequest) : Option BookingResponse × DBState :=
  match BookingService.get_class_by_id now s req.class_id with
  | none => (none, s)
  | some fitness_class =>
    if fitness_class.available_slots ≤ 0 then (none, s)
    else
      match Database.create_booking fault s req.class_id req.client_name req.client_email with
      | (none, s1) => (none, s1)
      | (some booking_id, s1) =>
        if booking_id = 0 then (none, s1)
        else
          (some { booking_id := booking_id, class_name := fitness_class.name,
                  client_name := req.client_name, client_email := req.client_email,
                  booking_date := fitness_class.date_time, message := "Booking successful!" },
           s1)

/-- `BookingService.get_bookings_by_email` converts the store rows to
`BookingHistory`; the fields are copied unchanged. -/
def BookingService.get_bookings_by_email (s : DBState) (email : String) : List BookingHistory :=
  Database.get_bookings_by_email s email

/-- The duplicate test of `BookingService.validate_booking_request`
(src/services.py lines 159–163): an existing booking of this client matches
when its joined class name and its booking date equal the target class's
name and start time. -/
def validationDupCheck (s : DBState) (fc : FitnessClass) (client_email : String) : Bool :=
  (BookingService.get_bookings_by_email s client_email).any
    (fun b => decide (b.class_name = fc.name ∧ b.booking_date = fc.date_time))

/-- `BookingService.validate_booking_request` (src/services.py lines 147–169). -/
def BookingService.validate_booking_request (now : Int) (s : DBState)
    (req : BookingRequest) : Bool × String :=
  match BookingService.get_class_by_id now s req.class_id with
  | none => (false, "Class not found or not available")
  | some fitness_class =>
    if fitness_class.available_slots ≤ 0 then (false, "No available slots for this class")
    else
      if validationDupCheck s fitness_class req.client_email then
        (false, "You have already booked this class")
      else
        (true, "Valid booking request")

/-- Result record of `BookingService.get_booking_statistics`. -/
structure BookingStatistics where
  total_classes : Nat
  total_slots : Int
  available_slots : Int
  booked_slots : Int
  booking_percentage : ℚ
deriving DecidableEq

/-- Python `round(x, 2)` on the exact rational value. -/
def round2 (q : ℚ) : ℚ := ((round (q * 100) : ℤ) : ℚ) / 100

/-- `BookingService.get_booking_statistics` (src/services.py lines 171–191). -/
def BookingService.get_booking_statistics (now : Int) (s : DBState) : BookingStatistics :=
  let all_classes := BookingService.get_all_classes now s
  let total_slots := (all_classes.map (fun c => c.total_slots)).sum
  let available_slots := (all_classes.map (fun c => c.available_slots)).sum
  let booked_slots := total_slots - available_slots
  { total_classes := all_classes.length,
    total_slots := total_slots,
    available_slots := available_slots,
    booked_slots := booked_slots,
    booking_percentage :=
      if 0 < total_slots then round2 ((booked_slots : ℚ) / (total_slots : ℚ) * 100) else 0 }

/-- Run a finite sequence of `Database.create_booking` attempts; each attempt
carries its fault flag, class id, client name and client email. -/
def runBookings : DBState → List (Bool × Nat × String × String) → DBState
  | s, [] => s
  | s, r :: rest =>
    runBookings (Database.create_booking r.1 s r.2.1 r.2.2.1 r.2.2.2).2 rest

/-- Uppercase/lowercase pairs of the ASCII alphabet; Python `str.upper` and
`str.lower` act on the characters admitted by the email pattern exactly by
this table. -/
def asciiLetterPairs : List (Char × Char) :=
  [('A', 'a'), ('B', 'b'), ('C', 'c'), ('D', 'd'), ('E', 'e'), ('F', 'f'), ('G', 'g'),
   ('H', 'h'), ('I', 'i'), ('J', 'j'), ('K', 'k'), ('L', 'l'), ('M', 'm'), ('N', 'n'),
   ('O', 'o'), ('P', 'p'), ('Q', 'q'), ('R', 'r'), ('S', 's'), ('T', 't'), ('U', 'u'),
   ('V', 'v'), ('W', 'w'), ('X', 'x'), ('Y', 'y'), ('Z', 'z')]

/-- Python `str.lower` on one ASCII character. -/
def pyLowerChar (c : Char) : Char :=
  match asciiLetterPairs.find? (fun p => p.1 = c) with
  | some p => p.2
  | none => c

/-- Python `str.upper` on one ASCII character. -/
def pyUpperChar (c : Char) : Char :=
  match asciiLetterPairs.find? (fun p => p.2 = c) with
  | some p => p.1
  | none => c

/-- Python `str.lower` on an ASCII string (`v.lower()` in
`validate_client_email`). -/
def pyLower (s : String) : String := String.mk (s.data.map pyLowerChar)

/-- Python `str.upper` on an ASCII string. -/
def pyUpper (s : String) : String := String.mk (s.data.map pyUpperChar)

/-- Character class of the local part: `[a-zA-Z0-9._%+-]`. -/
def isLocalChar (c : Char) : Bool :=
  ('a' ≤ c && c ≤ 'z') || ('A' ≤ c && c ≤ 'Z') || ('0' ≤ c && c ≤ '9') ||
    c = '.' || c = '_' || c = '%' || c = '+' || c = '-'

/-- Character class of the domain part: `[a-zA-Z0-9.-]`. -/
def isDomainChar (c : Char) : Bool :=
  ('a' ≤ c && c ≤ 'z') || ('A' ≤ c && c ≤ 'Z') || ('0' ≤ c && c ≤ '9') ||
    c = '.' || c = '-'

/-- Character class of the top-level domain: `[a-zA-Z]`. -/
def isAsciiAlpha (c : Char) : Bool :=
  ('a' ≤ c && c ≤ 'z') || ('A' ≤ c && c ≤ 'Z')

/-- The part of the email pattern after the `@`:
`[a-zA-Z0-9.-]+\.[a-zA-Z]\x7b2,\x7d$`.  Because the TLD class excludes dots,
the separating dot of any match is the last dot of the string. -/
def checkDomain (r : List Char) : Bool :=
  let rr := r.reverse
  let tld := rr.takeWhile (fun c => decide (c ≠ '.'))
  match rr.dropWhile (fun c => decide (c ≠ '.')) with
  | [] => false
  | _ :: d =>
    decide (2 ≤ tld.length) && tld.all isAsciiAlpha && (!d.isEmpty) && d.all isDomainChar

/-- The email pattern of `models.BookingRequest.validate_client_email`:
`^[a-zA-Z0-9._%+-]+@[a-zA-Z0-9.-]+\.[a-zA-Z]\x7b2,\x7d$`.  The local class
excludes `@`, so the `@` of any match is the first `@` of the string. -/
def validEmail (s : String) : Bool :=
  let l := s.data.takeWhile (fun c => decide (c ≠ '@'))
  match s.data.dropWhile (fun c => decide (c ≠ '@')) with
  | [] => false
  | _ :: r => (!l.isEmpty) && l.all isLocalChar && checkDomain r

/-- `models.BookingRequest.validate_client_email`: reject unless the raw
value matches the email pattern, then return it lowercased (`v.lower()`);
a raised `ValueError` is the `none` branch. -/
def validate_client_email (v : String) : Option String :=
  if validEmail v then some (pyLower v) else none

/-- Invariant of §3 of the spec: every class row keeps
`0 ≤ available_slots ≤ total_slots`. -/
def classInv (s : DBState) : Prop :=
  ∀ c ∈ s.classes, 0 ≤ c.available_slots ∧ c.available_slots ≤ c.total_slots

/-- Schema fact: `classes.id` is a primary key, so class ids are pairwise
distinct. -/
def classIdsNodup (s : DBState) : Prop :=
  (s.classes.map (fun c => c.id)).Nodup

/-- Invariant of §3 of the spec: at most one booking per
`(class_id, client_email)` pair. -/
def bookingPairInv (s : DBState) : Prop :=
  s.bookings.Pairwise
    (fun b1 b2 => ¬(b1.class_id = b2.class_id ∧ b1.client_email = b2.client_email))

/-- Hypothesis of the spec's §9 open question: the pair
`(name, date_time)` determines the class id. -/
def nameTimeUniquePerId (s : DBState) : Prop :=
  ∀ c1 ∈ s.classes, ∀ c2 ∈ s.classes,
    c1.name = c2.name → c1.date_time = c2.date_time → c1.id = c2.id

/-- States produced by `Database.create_booking`: every booking points to an
existing class and carries that class's stored start time as its
`booking_date`. -/
def bookingsWellFormed (s : DBState) : Prop :=
  ∀ b ∈ s.bookings, ∃ c ∈ s.classes, c.id = b.class_id ∧ b.booking_date = c.date_time

/-- Demonstration store: two future classes, no bookings yet. -/
def demoStore : DBState :=
  { classes := [{ id := 1, name := "Yoga", date_time := 100, instructor := "Sarah Johnson",
                  available_slots := 20, total_slots := 20 },
                { id := 2, name := "Zumba", date_time := 200, instructor := "Mike Rodriguez",
                  available_slots := 15, total_slots := 15 }],
    bookings := [], nextBookingId := 1 }

/-- Store holding a class whose start time (5) lies in the past for the call
instant 10 used below, yet with free slots. -/
def pastClassStore : DBState :=
  { classes := [{ id := 1, name := "Yoga", date_time := 5, instructor := "Sarah Johnson",
                  available_slots := 3, total_slots := 10 }],
    bookings := [], nextBookingId := 1 }

/-- Store of the spec's statistics example: total slots 20 and 15, with 5 and
15 of them booked. -/
def statsStore : DBState :=
  { classes := [{ id := 1, name := "Yoga", date_time := 10, instructor := "Sarah Johnson",
                  available_slots := 15, total_slots := 20 },
                { id := 2, name := "Zumba", date_time := 20, instructor := "Mike Rodriguez",
                  available_slots := 0, total_slots := 15 }],
    bookings := [], nextBookingId := 1 }

/-- Store with one future class already booked by john@example.com; the
booking's `booking_date` equals the class's start time, as
`Database.create_booking` guarantees. -/
def bookedStore : DBState :=
  { classes := [{ id := 1, name := "Yoga", date_time := 100, instructor := "Sarah Johnson",
                  available_slots := 19, total_slots := 20 }],
    bookings := [{ id := 1, class_id := 1, client_name := "John Doe",
                   client_email := "john@example.com", booking_date := 100 }],
    nextBookingId := 2 }

/-- Store whose single booking carries a `booking_date` (99) different from
its class's stored start time (100). -/
def mismatchStore : DBState :=
  { classes := [{ id := 1, name := "Yoga", date_time := 100, instructor := "Sarah Johnson",
                  available_slots := 19, total_slots := 20 }],
    bookings := [{ id := 1, class_id := 1, client_name := "John Doe",
                   client_email := "john@example.com", booking_date := 99 }],
    nextBookingId := 2 }

lemma decrementSlots_map_id (l : List ClassRow) (class_id : Nat) :
    (decrementSlots l class_id).map (fun c => c.id) = l.map (fun c => c.id) := by
  induction l with
  | nil => rfl
  | cons d ds ih =>
    simp only [decrementSlots, List.map_cons] at ih ⊢
    refine congrArg₂ _ ?_ ih
    by_cases h : d.id = class_id <;> simp [h]

lemma create_booking_classIds (fault : Bool) (s : DBState) (class_id : Nat) (n e : String) :
    ((Database.create_booking fault s class_id n e).2).classes.map (fun c => c.id) =
      s.classes.map (fun c => c.id) := by
  unfold Database.create_booking
  cases fault with
  | true => rfl
  | false =>
    cases hf : s.classes.find? (fun c => decide (c.id = class_id ∧ 0 < c.available_slots)) with
    | none => simp
    | some c =>
      cases hd : hasDuplicateBooking s class_id e with
      | true => simp [hd]
      | false => simp [hd, decrementSlots_map_id]

lemma create_booking_classInv (fault : Bool) (s : DBState) (class_id : Nat) (n e : String)
    (hids : classIdsNodup s) (hinv : classInv s) :
    classInv (Database.create_booking fault s class_id n e).2 := by
  unfold Database.create_booking
  cases fault with
  | true => exact hinv
  | false =>
    cases hf : s.classes.find? (fun c => decide (c.id = class_id ∧ 0 < c.available_slots)) with
    | none => simpa using hinv
    | some c =>
      cases hd : hasDuplicateBooking s class_id e with
      | true => simpa [hd] using hinv
      | false =>
        simp only [hd, if_false, Bool.false_eq_true]
        intro c' hc'
        simp only [decrementSlots, List.mem_map] at hc'
        obtain ⟨d, hdm, rfl⟩ := hc'
        have hp := List.find?_some hf
        have hcm := List.mem_of_find?_eq_some hf
        rw [decide_eq_true_eq] at hp
        by_cases hid : d.id = class_id
        · have hdc : d = c :=
            List.inj_on_of_nodup_map hids hdm hcm (by rw [hid, hp.1])
          subst hdc
          have hb := hinv d hdm
          simp only [hid, if_true]
          exact ⟨by omega, by omega⟩
        · simp only [hid, if_false]
          exact hinv d hdm

lemma runBookings_classInv (reqs : List (Bool × Nat × String × String)) :
    ∀ s : DBState, classIdsNodup s → classInv s → classInv (runBookings s reqs) := by
  induction reqs with
  | nil => intro s _ hinv; exact hinv
  | cons r rest ih =>
    intro s hids hinv
    refine ih _ ?_ ?_
    · unfold classIdsNodup
      rw [create_booking_classIds]
      exact hids
    · exact create_booking_classInv r.1 s r.2.1 r.2.2.1 r.2.2.2 hids hinv

lemma create_booking_dup_none (fault : Bool) (s : DBState) (class_id : Nat) (n e : String)
    (h : hasDuplicateBooking s class_id e = true) :
    (Database.create_booking fault s class_id n e).1 = none := by
  unfold Database.create_booking
  cases fault with
  | true => rfl
  | false =>
    cases hf : s.classes.find? (fun c => decide (c.id = class_id ∧ 0 < c.available_slots)) with
    | none => simp
    | some c => simp [h]

lemma create_booking_pairInv (fault : Bool) (s : DBState) (class_id : Nat) (n e : String)
    (hinv : bookingPairInv s) :
    bookingPairInv (Database.create_booking fault s class_id n e).2 := by
  unfold Database.create_booking
  cases fault with
  | true => exact hinv
  | false =>
    cases hf : s.classes.find? (fun c => decide (c.id = class_id ∧ 0 < c.available_slots)) with
    | none => simpa using hinv
    | some c =>
      cases hd : hasDuplicateBooking s class_id e with
      | true => simpa [hd] using hinv
      | false =>
        simp only [hd, if_false, Bool.false_eq_true]
        unfold bookingPairInv at hinv ⊢
        simp only [List.pairwise_append, List.pairwise_cons, List.mem_singleton]
        refine ⟨hinv, by simp, ?_⟩
        intro b1 hb1 b2 hb2
        subst hb2
        unfold hasDuplicateBooking at hd
        rw [List.any_eq_false] at hd
        have := hd b1 hb1
        rw [decide_eq_true_eq] at this
        simpa using this

lemma runBookings_pairInv (reqs : List (Bool × Nat × String × String)) :
    ∀ s : DBState, bookingPairInv s → bookingPairInv (runBookings s reqs) := by
  induction reqs with
  | nil => intro s hinv; exact hinv
  | cons r rest ih =>
    intro s hinv
    exact ih _ (create_booking_pairInv r.1 s r.2.1 r.2.2.1 r.2.2.2 hinv)

/-- C1: starting from a state whose class rows satisfy
`0 ≤ available_slots ≤ total_slots` (with distinct class ids, as the primary
key guarantees), any finite sequence of `create_booking` attempts keeps
every class's `available_slots` within `[0, total_slots]`; moreover a
successful attempt requires `available_slots > 0` for the booked class and
decrements exactly that counter by exactly 1. -/
theorem claim_C1 (s : DBState) (reqs : List (Bool × Nat × String × String))
    (hids : classIdsNodup s) (hinv : classInv s) :
    classInv (runBookings s reqs) ∧
    ∀ fault class_id n e, (Database.create_booking fault s class_id n e).1.isSome →
      ∃ c ∈ s.classes, c.id = class_id ∧ 0 < c.available_slots ∧
        { c with available_slots := c.available_slots - 1 } ∈
          (Database.create_booking fault s class_id n e).2.classes := by
  constructor
  · exact runBookings_classInv reqs s hids hinv
  · intro fault class_id n e hsome
    cases fault with
    | true => simp [Database.create_booking] at hsome
    | false =>
      cases hf : s.classes.find? (fun c => decide (c.id = class_id ∧ 0 < c.available_slots)) with
      | none =>
        simp only [Database.create_booking, hf] at hsome
        simp at hsome
      | some c =>
        cases hd : hasDuplicateBooking s class_id e with
        | true =>
          simp only [Database.create_booking, hf, hd] at hsome
          simp at hsome
        | false =>
          have hp := List.find?_some hf
          have hcm := List.mem_of_find?_eq_some hf
          rw [decide_eq_true_eq] at hp
          refine ⟨c, hcm, hp.1, hp.2, ?_⟩
          simp only [Database.create_booking, hf, hd, if_false, Bool.false_eq_true,
            decrementSlots, List.mem_map]
          exact ⟨c, hcm, by simp [hp.1]⟩

theorem claim_C1_witness :
    classInv (runBookings demoStore
      [(false, 1, "John Doe", "john@example.com"), (false, 1, "Jane Doe", "jane@example.com"),
       (true, 2, "Ann Smith", "ann@example.com")]) :=
  (claim_C1 demoStore _ (by unfold classIdsNodup; decide) (by unfold classInv; decide)).1

/-- C2: starting from a state with no duplicate `(class_id, client_email)`
pair among the bookings, any finite sequence of `create_booking` attempts
keeps at most one booking per pair, and an attempt for a pair that already
has a booking returns the absent sentinel. -/
theorem claim_C2 (s : DBState) (reqs : List (Bool × Nat × String × String))
    (hinv : bookingPairInv s) :
    bookingPairInv (runBookings s reqs) ∧
    ∀ fault class_id n e, hasDuplicateBooking s class_id e = true →
      (Database.create_booking fault s class_id n e).1 = none := by
  constructor
  · exact runBookings_pairInv reqs s hinv
  · intro fault class_id n e h
    exact create_booking_dup_none fault s class_id n e h

theorem claim_C2_witness :
    bookingPairInv (runBookings demoStore
      [(false, 1, "John Doe", "john@example.com"),
       (false, 1, "John Doe", "john@example.com")]) :=
  (claim_C2 demoStore _ (by simp [bookingPairInv, demoStore])).1

lemma create_booking_none_eq (fault : Bool) (s : DBState) (class_id : Nat) (n e : String)
    (h : (Database.create_booking fault s class_id n e).1 = none) :
    (Database.create_booking fault s class_id n e).2 = s := by
  cases fault with
  | true => rfl
  | false =>
    cases hf : s.classes.find? (fun c => decide (c.id = class_id ∧ 0 < c.available_slots)) with
    | none =>
      simp only [Database.create_booking, hf, Bool.false_eq_true, if_false]
    | some c =>
      cases hd : hasDuplicateBooking s class_id e with
      | true =>
        simp only [Database.create_booking, hf, hd, if_true, Bool.false_eq_true, if_false]
      | false =>
        exfalso
        simp only [Database.create_booking, hf, hd, Bool.false_eq_true, if_false] at h
        simp at h

lemma create_booking_some_eq (fault : Bool) (s : DBState) (class_id : Nat) (n e : String)
    (bid : Nat) (h : (Database.create_booking fault s class_id n e).1 = some bid) :
    bid = s.nextBookingId ∧
    ∃ c, s.classes.find? (fun c => decide (c.id = class_id ∧ 0 < c.available_slots)) = some c ∧
      (Database.create_booking fault s class_id n e).2 =
        { classes := decrementSlots s.classes class_id,
          bookings := s.bookings ++
            [{ id := s.nextBookingId, class_id := class_id, client_name := n,
               client_email := e, booking_date := c.date_time }],
          nextBookingId := s.nextBookingId + 1 } := by
  cases fault with
  | true => exact absurd h (by simp [Database.create_booking])
  | false =>
    cases hf : s.classes.find? (fun c => decide (c.id = class_id ∧ 0 < c.available_slots)) with
    | none =>
      exfalso
      simp only [Database.create_booking, hf] at h
      simp at h
    | some c =>
      cases hd : hasDuplicateBooking s class_id e with
      | true =>
        exfalso
        simp only [Database.create_booking, hf, hd, if_true] at h
        simp at h
      | false =>
        simp only [Database.create_booking, hf, hd, Bool.false_eq_true, if_false] at h ⊢
        simp only [Option.some.injEq] at h
        exact ⟨h.symm, c, rfl, by simp⟩

lemma service_get_class_some (now : Int) (s : DBState) (class_id : Nat) (fc : FitnessClass)
    (h : BookingService.get_class_by_id now s class_id = some fc) :
    ∃ c ∈ s.classes, c.id = class_id ∧ now < c.date_time ∧ fc = toFitnessClass c := by
  cases hg : Database.get_class_by_id s class_id with
  | none =>
    simp only [BookingService.get_class_by_id, hg] at h
    exact absurd h (by simp)
  | some c =>
    simp only [BookingService.get_class_by_id, hg] at h
    cases hfut : is_future_class now c.date_time with
    | false => rw [hfut] at h; exact absurd h (by simp)
    | true =>
      rw [hfut] at h
      simp only [if_true, Option.some.injEq] at h
      have hcm := List.mem_of_find?_eq_some hg
      have hcid := List.find?_some hg
      rw [decide_eq_true_eq] at hcid
      rw [is_future_class, decide_eq_true_eq] at hfut
      exact ⟨c, hcm, hcid, hfut, h.symm⟩

/-- C3: on every failure of the booking-creation path — class not found, no
available slots, duplicate booking, or an injected storage fault — the
operation returns the absent sentinel and leaves the store exactly as it
was; on success the booking row is appended and the class counter
decremented in the same step, so no partial state is observable.  The
service layer propagates the sentinel without raising (row ids are at least
1, as SQLite assigns them). -/
theorem claim_C3 (fault : Bool) (s : DBState) (class_id : Nat) (n e : String) :
    ((Database.create_booking fault s class_id n e).1 = none →
      (Database.create_booking fault s class_id n e).2 = s) ∧
    (∀ bid, (Database.create_booking fault s class_id n e).1 = some bid →
      bid = s.nextBookingId ∧
      ∃ c, s.classes.find? (fun c => decide (c.id = class_id ∧ 0 < c.available_slots)) = some c ∧
        (Database.create_booking fault s class_id n e).2 =
          { classes := decrementSlots s.classes class_id,
            bookings := s.bookings ++
              [{ id := s.nextBookingId, class_id := class_id, client_name := n,
                 client_email := e, booking_date := c.date_time }],
            nextBookingId := s.nextBookingId + 1 }) ∧
    (∀ (now : Int) (req : BookingRequest), 1 ≤ s.nextBookingId →
      (BookingService.create_booking fault now s req).1 = none →
      (BookingService.create_booking fault now s req).2 = s) := by
  refine ⟨create_booking_none_eq fault s class_id n e,
    fun bid h => create_booking_some_eq fault s class_id n e bid h, ?_⟩
  intro now req hnext h
  cases hg : BookingService.get_class_by_id now s req.class_id with
  | none => simp only [BookingService.create_booking, hg]
  | some fc =>
    cases hav : decide (fc.available_slots ≤ 0) with
    | true =>
      rw [decide_eq_true_eq] at hav
      simp only [BookingService.create_booking, hg, if_pos hav]
    | false =>
      rw [decide_eq_false_iff_not] at hav
      cases hdb : Database.create_booking fault s req.class_id req.client_name req.client_email with
      | mk o s1 =>
        cases o with
        | none =>
          simp only [BookingService.create_booking, hg, if_neg hav, hdb]
          have := create_booking_none_eq fault s req.class_id req.client_name req.client_email
            (by rw [hdb])
          rw [hdb] at this
          exact this
        | some bid =>
          exfalso
          have hbid := (create_booking_some_eq fault s req.class_id req.client_name
            req.client_email bid (by rw [hdb])).1
          have hbid0 : ¬ bid = 0 := by omega
          simp only [BookingService.create_booking, hg, if_neg hav, hdb, if_neg hbid0] at h
          exact absurd h (by simp)

theorem claim_C3_witness :
    (Database.create_booking false demoStore 999 "John Doe" "john@example.com").2 = demoStore ∧
    (1 : Nat) = demoStore.nextBookingId ∧
    (BookingService.create_booking false 0 demoStore
      { class_id := 999, client_name := "John Doe", client_email := "john@example.com" }).2 =
      demoStore :=
  ⟨(claim_C3 false demoStore 999 "John Doe" "john@example.com").1 (by decide),
   ((claim_C3 false demoStore 1 "John Doe" "john@example.com").2.1 1 (by decide)).1,
   (claim_C3 false demoStore 999 "John Doe" "john@example.com").2.2 0
     { class_id := 999, client_name := "John Doe", client_email := "john@example.com" }
     (by decide) (by decide)⟩

/-- C4 fails as stated: the transactional unit `Database.create_booking`
performs no start-time check, so a class whose start time (5) already lies
in the past at commit time (10) is still booked by the transaction itself
whenever it exists with free slots and no duplicate. -/
theorem claim_C4_counterexample :
    ¬ (∀ (s : DBState) (now : Int) (class_id : Nat) (n e : String),
        (∀ c ∈ s.classes, c.id = class_id → c.date_time ≤ now) →
        (Database.create_booking false s class_id n e).1 = none) := by
  intro h
  have hres := h pastClassStore 10 1 "John Doe" "john@example.com" (by decide)
  have : (Database.create_booking false pastClassStore 1 "John Doe" "john@example.com").1 =
      some 1 := by decide
  rw [this] at hres
  exact absurd hres (by simp)

/-- C4 amended: the transactional unit re-runs exactly three of the four
admissibility checks — class existence, `available_slots > 0`, and no
duplicate `(class_id, client_email)` booking — and accepts precisely when
they all pass; the start-time-in-the-future check runs only in the service
layer before the transaction, so a service-level success still implies the
class was in the future at validation time. -/
theorem claim_C4_amended :
    (∀ (s : DBState) (class_id : Nat) (n e : String),
      (Database.create_booking false s class_id n e).1.isSome = true ↔
        ((∃ c ∈ s.classes, c.id = class_id ∧ 0 < c.available_slots) ∧
         ∀ b ∈ s.bookings, ¬(b.class_id = class_id ∧ b.client_email = e))) ∧
    (∀ (fault : Bool) (now : Int) (s : DBState) (req : BookingRequest),
      (BookingService.create_booking fault now s req).1.isSome = true →
        ∃ c ∈ s.classes, c.id = req.class_id ∧ now < c.date_time) := by
  constructor
  · intro s class_id n e
    constructor
    · intro h
      cases hf : s.classes.find? (fun c => decide (c.id = class_id ∧ 0 < c.available_slots)) with
      | none =>
        simp only [Database.create_booking, hf, Bool.false_eq_true, if_false] at h
        simp at h
      | some c =>
        cases hd : hasDuplicateBooking s class_id e with
        | true =>
          simp only [Database.create_booking, hf, hd, if_true, Bool.false_eq_true, if_false] at h
          simp at h
        | false =>
          have hp := List.find?_some hf
          have hcm := List.mem_of_find?_eq_some hf
          rw [decide_eq_true_eq] at hp
          refine ⟨⟨c, hcm, hp.1, hp.2⟩, ?_⟩
          intro b hb
          unfold hasDuplicateBooking at hd
          rw [List.any_eq_false] at hd
          have := hd b hb
          rw [decide_eq_true_eq] at this
          exact this
    · rintro ⟨⟨c, hcm, hcid, hcs⟩, hnodup⟩
      cases hf : s.classes.find? (fun c => decide (c.id = class_id ∧ 0 < c.available_slots)) with
      | none =>
        exfalso
        rw [List.find?_eq_none] at hf
        exact absurd (by rw [decide_eq_true_eq]; exact ⟨hcid, hcs⟩) (hf c hcm)
      | some c' =>
        have hd : hasDuplicateBooking s class_id e = false := by
          unfold hasDuplicateBooking
          rw [List.any_eq_false]
          intro b hb
          rw [decide_eq_true_eq]
          exact hnodup b hb
        simp only [Database.create_booking, hf, hd, Bool.false_eq_true, if_false]
        simp
  · intro fault now s req h
    cases hg : BookingService.get_class_by_id now s req.class_id with
    | none =>
      exfalso
      simp only [BookingService.create_booking, hg] at h
      simp at h
    | some fc =>
      obtain ⟨c, hcm, hcid, hfut, _⟩ := service_get_class_some now s req.class_id fc hg
      exact ⟨c, hcm, hcid, hfut⟩

theorem claim_C4_witness :
    (Database.create_booking false pastClassStore 1 "Jane Doe" "jane@example.com").1.isSome =
      true ∧
    ∃ c ∈ demoStore.classes, c.id = 1 ∧ (0 : Int) < c.date_time := by
  constructor
  · exact (claim_C4_amended.1 pastClassStore 1 "Jane Doe" "jane@example.com").mpr
      (by constructor
          · exact ⟨{ id := 1, name := "Yoga", date_time := 5, instructor := "Sarah Johnson",
                     available_slots := 3, total_slots := 10 }, by decide, by decide, by decide⟩
          · intro b hb; simp [pastClassStore] at hb)
  · exact claim_C4_amended.2 false 0 demoStore
      { class_id := 1, client_name := "John Doe", client_email := "john@example.com" }
      (by decide)

/-- C5: for a class row that exists but whose start time is not strictly in
the future at call time, the booking attempt is rejected regardless of its
free slots: validation answers (False, "Class not found or not available")
and the service-level create returns the absent sentinel with the store
unchanged. -/
theorem claim_C5 (fault : Bool) (now : Int) (s : DBState) (req : BookingRequest) (c : ClassRow)
    (hfind : Database.get_class_by_id s req.class_id = some c)
    (hpast : c.date_time ≤ now) :
    BookingService.validate_booking_request now s req =
      (false, "Class not found or not available") ∧
    BookingService.create_booking fault now s req = (none, s) := by
  have hfut : is_future_class now c.date_time = false := by
    rw [is_future_class, decide_eq_false_iff_not]
    omega
  have hnone : BookingService.get_class_by_id now s req.class_id = none := by
    simp only [BookingService.get_class_by_id, hfind, hfut, Bool.false_eq_true, if_false]
  constructor
  · simp only [BookingService.validate_booking_request, hnone]
  · simp only [BookingService.create_booking, hnone]

theorem claim_C5_witness :
    BookingService.validate_booking_request 10 pastClassStore
      { class_id := 1, client_name := "John Doe", client_email := "john@example.com" } =
      (false, "Class not found or not available") :=
  (claim_C5 false 10 pastClassStore
    { class_id := 1, client_name := "John Doe", client_email := "john@example.com" }
    { id := 1, name := "Yoga", date_time := 5, instructor := "Sarah Johnson",
      available_slots := 3, total_slots := 10 }
    (by decide) (by decide)).1

lemma perm_insertByDate (c : ClassRow) (l : List ClassRow) :
    List.Perm (insertByDate c l) (c :: l) := by
  induction l with
  | nil => exact List.Perm.refl _
  | cons d ds ih =>
    by_cases hcd : c.date_time ≤ d.date_time
    · rw [insertByDate, if_pos hcd]
    · rw [insertByDate, if_neg hcd]
      exact (ih.cons d).trans (List.Perm.swap c d ds)

lemma perm_sortByDate (l : List ClassRow) : List.Perm (sortByDate l) l := by
  induction l with
  | nil => exact List.Perm.refl _
  | cons c cs ih =>
    show List.Perm (insertByDate c (sortByDate cs)) (c :: cs)
    exact (perm_insertByDate c (sortByDate cs)).trans (ih.cons c)

lemma pairwise_insertByDate (c : ClassRow) (l : List ClassRow)
    (h : l.Pairwise (fun a b => a.date_time ≤ b.date_time)) :
    (insertByDate c l).Pairwise (fun a b => a.date_time ≤ b.date_time) := by
  induction l with
  | nil => simp [insertByDate]
  | cons d ds ih =>
    by_cases hcd : c.date_time ≤ d.date_time
    · rw [insertByDate, if_pos hcd]
      refine List.Pairwise.cons ?_ h
      intro x hx
      rcases List.mem_cons.mp hx with rfl | hx2
      · exact hcd
      · exact le_trans hcd ((List.pairwise_cons.mp h).1 x hx2)
    · rw [insertByDate, if_neg hcd]
      have h2 := List.pairwise_cons.mp h
      refine List.Pairwise.cons ?_ (ih h2.2)
      intro x hx
      rcases List.mem_cons.mp ((perm_insertByDate c ds).mem_iff.mp hx) with rfl | hx2
      · exact le_of_not_le hcd
      · exact h2.1 x hx2

lemma pairwise_sortByDate (l : List ClassRow) :
    (sortByDate l).Pairwise (fun a b => a.date_time ≤ b.date_time) := by
  induction l with
  | nil => simp [sortByDate]
  | cons c cs ih => exact pairwise_insertByDate c (sortByDate cs) ih

lemma perm_insertByDateDesc (x : BookingHistory) (l : List BookingHistory) :
    List.Perm (insertByDateDesc x l) (x :: l) := by
  induction l with
  | nil => exact List.Perm.refl _
  | cons y ys ih =>
    by_cases hxy : y.booking_date ≤ x.booking_date
    · rw [insertByDateDesc, if_pos hxy]
    · rw [insertByDateDesc, if_neg hxy]
      exact (ih.cons y).trans (List.Perm.swap x y ys)

lemma perm_sortByDateDesc (l : List BookingHistory) : List.Perm (sortByDateDesc l) l := by
  induction l with
  | nil => exact List.Perm.refl _
  | cons x xs ih =>
    show List.Perm (insertByDateDesc x (sortByDateDesc xs)) (x :: xs)
    exact (perm_insertByDateDesc x (sortByDateDesc xs)).trans (ih.cons x)

lemma get_all_classes_eq (now : Int) (s : DBState) :
    BookingService.get_all_classes now s =
      (sortByDate (s.classes.filter (fun c => decide (now < c.date_time)))).map toFitnessClass := by
  unfold BookingService.get_all_classes Database.get_all_classes
  congr 1
  apply List.filter_eq_self.mpr
  intro c hc
  have hm := (perm_sortByDate _).mem_iff.mp hc
  rw [List.mem_filter] at hm
  rw [is_future_class]
  exact hm.2

lemma mem_service_get_all_classes (now : Int) (s : DBState) (fc : FitnessClass) :
    fc ∈ BookingService.get_all_classes now s ↔
      ∃ c ∈ s.classes, now < c.date_time ∧ fc = toFitnessClass c := by
  rw [get_all_classes_eq, List.mem_map]
  constructor
  · rintro ⟨c, hc, rfl⟩
    have hm := (perm_sortByDate _).mem_iff.mp hc
    rw [List.mem_filter, decide_eq_true_eq] at hm
    exact ⟨c, hm.1, hm.2, rfl⟩
  · rintro ⟨c, hcm, hlt, rfl⟩
    exact ⟨c, (perm_sortByDate _).mem_iff.mpr
      (List.mem_filter.mpr ⟨hcm, by rw [decide_eq_true_eq]; exact hlt⟩), rfl⟩

/-- C6: the class listing contains exactly the stored classes whose start
time is strictly after the comparison clock at call time — no class whose
start time has passed ever appears — and the returned sequence is sorted by
start time ascending. -/
theorem claim_C6 (now : Int) (s : DBState) :
    (∀ fc ∈ BookingService.get_all_classes now s, now < fc.date_time) ∧
    (BookingService.get_all_classes now s).Pairwise
      (fun a b => a.date_time ≤ b.date_time) ∧
    (∀ c ∈ s.classes, now < c.date_time →
      toFitnessClass c ∈ BookingService.get_all_classes now s) ∧
    (∀ fc ∈ BookingService.get_all_classes now s,
      ∃ c ∈ s.classes, now < c.date_time ∧ fc = toFitnessClass c) := by
  refine ⟨?_, ?_, ?_, ?_⟩
  · intro fc hfc
    obtain ⟨c, _, hlt, rfl⟩ := (mem_service_get_all_classes now s fc).mp hfc
    exact hlt
  · rw [get_all_classes_eq, List.pairwise_map]
    exact pairwise_sortByDate _
  · intro c hcm hlt
    exact (mem_service_get_all_classes now s _).mpr ⟨c, hcm, hlt, rfl⟩
  · intro fc hfc
    exact (mem_service_get_all_classes now s fc).mp hfc

theorem claim_C6_witness :
    toFitnessClass { id := 1, name := "Yoga", date_time := 100, instructor := "Sarah Johnson",
                     available_slots := 20, total_slots := 20 } ∈
      BookingService.get_all_classes 0 demoStore :=
  (claim_C6 0 demoStore).2.2.1 _ (by decide) (by decide)

/-- C10: the statistics aggregate only over classes whose start time is
strictly in the future at call time — counts and slot sums range over the
filtered upcoming classes — so on the example store the totals drop from 2
listed classes to 0 when the clock passes both start times, with no booking
activity in between. -/
theorem claim_C10 (now : Int) (s : DBState) :
    (BookingService.get_booking_statistics now s).total_classes =
      (s.classes.filter (fun c => decide (now < c.date_time))).length ∧
    (BookingService.get_booking_statistics now s).total_slots =
      ((s.classes.filter (fun c => decide (now < c.date_time))).map
        (fun c => c.total_slots)).sum ∧
    (BookingService.get_booking_statistics now s).available_slots =
      ((s.classes.filter (fun c => decide (now < c.date_time))).map
        (fun c => c.available_slots)).sum ∧
    (BookingService.get_booking_statistics 0 statsStore).total_classes = 2 ∧
    (BookingService.get_booking_statistics 25 statsStore).total_classes = 0 := by
  refine ⟨?_, ?_, ?_, by decide, by decide⟩
  · show (BookingService.get_all_classes now s).length = _
    rw [get_all_classes_eq, List.length_map, (perm_sortByDate _).length_eq]
  · show ((BookingService.get_all_classes now s).map (fun c => c.total_slots)).sum = _
    rw [get_all_classes_eq, List.map_map,
      List.Perm.sum_eq ((perm_sortByDate _).map ((fun c => c.total_slots) ∘ toFitnessClass))]
    rfl
  · show ((BookingService.get_all_classes now s).map (fun c => c.available_slots)).sum = _
    rw [get_all_classes_eq, List.map_map,
      List.Perm.sum_eq ((perm_sortByDate _).map ((fun c => c.available_slots) ∘ toFitnessClass))]
    rfl

/-- C7: the statistics report `booked_slots` as `total_slots` minus
`available_slots` and `booking_percentage` as
`round(booked_slots / total_slots * 100, 2)` when `total_slots > 0` and `0`
otherwise; on a store with two classes of total slots 20 and 15 with 5 and
15 booked, the result is total_slots 35, booked_slots 20, and
booking_percentage 57.14. -/
theorem claim_C7 (now : Int) (s : DBState) :
    ((BookingService.get_booking_statistics now s).booked_slots =
      (BookingService.get_booking_statistics now s).total_slots -
        (BookingService.get_booking_statistics now s).available_slots) ∧
    ((BookingService.get_booking_statistics now s).booking_percentage =
      if 0 < (BookingService.get_booking_statistics now s).total_slots then
        round2 (((BookingService.get_booking_statistics now s).booked_slots : ℚ) /
          ((BookingService.get_booking_statistics now s).total_slots : ℚ) * 100)
      else 0) ∧
    BookingService.get_booking_statistics 0 statsStore =
      { total_classes := 2, total_slots := 35, available_slots := 15, booked_slots := 20,
        booking_percentage := 5714 / 100 } := by
  refine ⟨rfl, rfl, ?_⟩
  have h : BookingService.get_all_classes 0 statsStore =
      [toFitnessClass { id := 1, name := "Yoga", date_time := 10, instructor := "Sarah Johnson",
                        available_slots := 15, total_slots := 20 },
       toFitnessClass { id := 2, name := "Zumba", date_time := 20, instructor := "Mike Rodriguez",
                        available_slots := 0, total_slots := 15 }] := by decide
  simp only [BookingService.get_booking_statistics, h, toFitnessClass]
  norm_num [round2, round_eq]

lemma asciiLetterPairs_lower :
    ∀ p ∈ asciiLetterPairs, pyLowerChar p.1 = p.2 ∧ pyLowerChar p.2 = p.2 := by decide

lemma pyLowerChar_pyUpperChar (c : Char) : pyLowerChar (pyUpperChar c) = pyLowerChar c := by
  unfold pyUpperChar
  cases hf : asciiLetterPairs.find? (fun p => p.2 = c) with
  | none => rfl
  | some p =>
    have hm := List.mem_of_find?_eq_some hf
    have hp := List.find?_some hf
    rw [decide_eq_true_eq] at hp
    subst hp
    have hh := asciiLetterPairs_lower p hm
    rw [hh.1, hh.2]

lemma pyLower_pyUpper (v : String) : pyLower (pyUpper v) = pyLower v := by
  refine congrArg String.mk ?_
  show (v.data.map pyUpperChar).map pyLowerChar = v.data.map pyLowerChar
  rw [List.map_map]
  exact List.map_congr_left (fun c _ => pyLowerChar_pyUpperChar c)

/-- C8: duplicate detection is invariant under email letter-case: for an
email accepted by the validator, the uppercased form is also normalized to
the same lowercase string, so once a booking exists for the normalized
email of one form, an attempt carrying the other form is rejected as a
duplicate by the store. -/
theorem claim_C8 (fault : Bool) (s : DBState) (class_id : Nat) (n e : String)
    (hv : validEmail e = true) (hvu : validEmail (pyUpper e) = true) :
    validate_client_email e = some (pyLower e) ∧
    validate_client_email (pyUpper e) = some (pyLower e) ∧
    (hasDuplicateBooking s class_id (pyLower e) = true →
      (Database.create_booking fault s class_id n (pyLower (pyUpper e))).1 = none) := by
  refine ⟨?_, ?_, ?_⟩
  · rw [validate_client_email, if_pos hv]
  · rw [validate_client_email, if_pos hvu, pyLower_pyUpper]
  · intro hdup
    rw [pyLower_pyUpper]
    exact create_booking_dup_none fault s class_id n (pyLower e) hdup

theorem claim_C8_witness :
    validate_client_email (pyUpper "john@example.com") = some (pyLower "john@example.com") ∧
    (Database.create_booking false bookedStore 1 "John Doe"
      (pyLower (pyUpper "john@example.com"))).1 = none :=
  ⟨(claim_C8 false bookedStore 1 "John Doe" "john@example.com" (by decide) (by decide)).2.1,
   (claim_C8 false bookedStore 1 "John Doe" "john@example.com" (by decide) (by decide)).2.2
     (by decide)⟩

lemma mem_get_bookings_by_email (s : DBState) (email : String) (x : BookingHistory) :
    x ∈ BookingService.get_bookings_by_email s email ↔
      ∃ b ∈ s.bookings, b.client_email = email ∧ joinClassName s b = some x := by
  unfold BookingService.get_bookings_by_email Database.get_bookings_by_email
  rw [(perm_sortByDateDesc _).mem_iff, List.mem_filterMap]
  constructor
  · rintro ⟨b, hb, hj⟩
    rw [List.mem_filter] at hb
    exact ⟨b, hb.1, of_decide_eq_true hb.2, hj⟩
  · rintro ⟨b, hbm, hbe, hj⟩
    exact ⟨b, List.mem_filter.mpr ⟨hbm, decide_eq_true hbe⟩, hj⟩

lemma joinClassName_some (s : DBState) (b : BookingRow) (x : BookingHistory)
    (h : joinClassName s b = some x) :
    ∃ c ∈ s.classes, c.id = b.class_id ∧
      x = { id := b.id, class_name := c.name, client_name := b.client_name,
            client_email := b.client_email, booking_date := b.booking_date } := by
  cases hf : s.classes.find? (fun c => decide (c.id = b.class_id)) with
  | none =>
    exfalso
    simp only [joinClassName, hf] at h
    exact Option.noConfusion h
  | some c =>
    simp only [joinClassName, hf, Option.some.injEq] at h
    have hcid := List.find?_some hf
    rw [decide_eq_true_eq] at hcid
    exact ⟨c, List.mem_of_find?_eq_some hf, hcid, h.symm⟩

lemma joinClassName_eq_some (s : DBState) (b : BookingRow) (c : ClassRow)
    (hids : classIdsNodup s) (hcm : c ∈ s.classes) (hcid : c.id = b.class_id) :
    joinClassName s b =
      some { id := b.id, class_name := c.name, client_name := b.client_name,
             client_email := b.client_email, booking_date := b.booking_date } := by
  cases hf : s.classes.find? (fun d => decide (d.id = b.class_id)) with
  | none =>
    exfalso
    rw [List.find?_eq_none] at hf
    exact absurd (decide_eq_true hcid) (hf c hcm)
  | some c2 =>
    have hc2m := List.mem_of_find?_eq_some hf
    have hc2id := List.find?_some hf
    rw [decide_eq_true_eq] at hc2id
    have hcc : c2 = c := List.inj_on_of_nodup_map hids hc2m hcm (by rw [hc2id, hcid])
    subst hcc
    simp only [joinClassName, hf]

/-- C9 fails as stated: name/time uniqueness per class id is not enough to
make the two duplicate checks agree.  In a store whose single booking
carries a stored `booking_date` (99) different from its class's current
start time (100), the storage-level check on `(class_id, client_email)`
finds the booking while the validation-path comparison on
`(class name, start time)` does not. -/
theorem claim_C9_counterexample :
    ¬ (∀ (s : DBState) (now : Int) (req : BookingRequest) (fc : FitnessClass),
        nameTimeUniquePerId s →
        BookingService.get_class_by_id now s req.class_id = some fc →
        (validationDupCheck s fc req.client_email = true ↔
          hasDuplicateBooking s req.class_id req.client_email = true)) := by
  intro h
  have h2 := h mismatchStore 0
    { class_id := 1, client_name := "John Doe", client_email := "john@example.com" }
    (toFitnessClass { id := 1, name := "Yoga", date_time := 100, instructor := "Sarah Johnson",
                      available_slots := 19, total_slots := 20 })
    (by unfold nameTimeUniquePerId; decide) (by decide)
  have h3 := h2.mpr (by decide)
  have h4 : validationDupCheck mismatchStore
      (toFitnessClass { id := 1, name := "Yoga", date_time := 100, instructor := "Sarah Johnson",
                        available_slots := 19, total_slots := 20 }) "john@example.com" =
      false := by decide
  rw [h4] at h3
  exact absurd h3 (by simp)

/-- C9 amended: under name/time uniqueness per class id together with the
guarantees the store itself maintains — distinct class ids (primary key)
and every booking pointing to an existing class with `booking_date` equal
to that class's stored start time — the validation-path duplicate check on
`(class name, start time)` agrees exactly with the storage-level check on
`(class_id, client_email)` for the class returned by the lookup. -/
theorem claim_C9_amended (now : Int) (s : DBState) (req : BookingRequest) (fc : FitnessClass)
    (hids : classIdsNodup s) (hwf : bookingsWellFormed s) (huniq : nameTimeUniquePerId s)
    (hfc : BookingService.get_class_by_id now s req.class_id = some fc) :
    validationDupCheck s fc req.client_email = true ↔
      hasDuplicateBooking s req.class_id req.client_email = true := by
  obtain ⟨c0, hc0m, hc0id, hc0fut, rfl⟩ := service_get_class_some now s req.class_id fc hfc
  constructor
  · intro h
    rw [validationDupCheck, List.any_eq_true] at h
    obtain ⟨x, hx, hpx⟩ := h
    rw [decide_eq_true_eq] at hpx
    obtain ⟨b, hbm, hbe, hj⟩ := (mem_get_bookings_by_email s req.client_email x).mp hx
    obtain ⟨c1, hc1m, hc1id, rfl⟩ := joinClassName_some s b x hj
    obtain ⟨cw, hcwm, hcwid, hcwdate⟩ := hwf b hbm
    have hcc : c1 = cw := List.inj_on_of_nodup_map hids hc1m hcwm (by rw [hc1id, hcwid])
    subst hcc
    have hdt : c1.date_time = c0.date_time := by
      rw [← hcwdate]
      exact hpx.2
    have hid : c1.id = c0.id := huniq c1 hc1m c0 hc0m hpx.1 hdt
    rw [hasDuplicateBooking, List.any_eq_true]
    refine ⟨b, hbm, decide_eq_true ⟨?_, hbe⟩⟩
    omega
  · intro h
    rw [hasDuplicateBooking, List.any_eq_true] at h
    obtain ⟨b, hbm, hpb⟩ := h
    rw [decide_eq_true_eq] at hpb
    obtain ⟨cw, hcwm, hcwid, hcwdate⟩ := hwf b hbm
    have hcc : cw = c0 := List.inj_on_of_nodup_map hids hcwm hc0m (by rw [hcwid, hpb.1, hc0id])
    subst hcc
    rw [validationDupCheck, List.any_eq_true]
    refine ⟨{ id := b.id, class_name := cw.name, client_name := b.client_name,
              client_email := b.client_email, booking_date := b.booking_date }, ?_, ?_⟩
    · rw [mem_get_bookings_by_email]
      exact ⟨b, hbm, hpb.2, joinClassName_eq_some s b cw hids hcwm hcwid⟩
    · rw [decide_eq_true_eq]
      exact ⟨rfl, hcwdate⟩

theorem claim_C9_witness :
    validationDupCheck bookedStore
      (toFitnessClass { id := 1, name := "Yoga", date_time := 100, instructor := "Sarah Johnson",
                        available_slots := 19, total_slots := 20 }) "john@example.com" = true :=
  (claim_C9_amended 0 bookedStore
    { class_id := 1, client_name := "John Doe", client_email := "john@example.com" }
    (toFitnessClass { id := 1, name := "Yoga", date_time := 100, instructor := "Sarah Johnson",
                      available_slots := 19, total_slots := 20 })
    (by unfold classIdsNodup; decide) (by unfold bookingsWellFormed; decide)
    (by unfold nameTimeUniquePerId; decide) (by decide)).mpr (by decide)
